import Mathlib

/-!
Verification of the organization authorization and invitation-lifecycle
engine of `organization/services.py` (class `OrganizationService`), via a
shallow embedding.  Django model rows become Lean structures, the database
becomes explicit lists of rows, queryset filters become `List.filter`, and
exceptions become an explicit error type.  Mutating service methods return
the database as updated so far together with either a result or an error,
mirroring the fact that the source performs its writes one `save` at a time
with no surrounding transaction.
-/

namespace OrgService

/-- A JSON scalar as allowed for the values of a policy `statement`
(`anyOf` string / number in `PERMISSIONS_POLICY_SCHEMA`).  Policy numbers
are modelled as integers. -/
inductive JVal where
  | jnum (n : Int)
  | jstr (s : String)
deriving DecidableEq, Repr

/-- A permissions-policy document: the two keys the schema mentions, each
possibly absent.  `version := none` models a document missing the
`version` key; `statement := none` models a document without a `statement`
key; a `statement` is a finite mapping from action names to `JVal`. -/
structure PolicyDoc where
  version : Option JVal
  statement : Option (List (String × JVal))
deriving DecidableEq, Repr

/-- `PERMISSIONS_POLICY_SCHEMA` requires a numeric `version` key; the
`statement` values are always strings or numbers in this model, so schema
validity reduces to the `version` key holding a number. -/
def schemaValid (d : PolicyDoc) : Bool :=
  match d.version with
  | some (JVal.jnum _) => true
  | _ => false

/-- A Python `{}` (no keys at all) is falsy; `organization.permissions_policy
or {'version': 0}` replaces it by the default. -/
def PolicyDoc.isEmptyDict (d : PolicyDoc) : Bool :=
  d.version = none && d.statement = none

/-- `OrganizationService.DEFAULT_PERMISSIONS_POLICY = {'version': 0}`. -/
def DEFAULT_PERMISSIONS_POLICY : PolicyDoc :=
  { version := some (JVal.jnum 0), statement := none }

/-- Modelled from the spec: `PermissionLevel.OWNER` lives in
`organization/models.py`, which is not part of the sources; the spec says
only that OWNER is the maximum recognized level, an ordered integer.  The
concrete value is irrelevant to every claim; we fix one. -/
def OWNER : Int := 100

/-- A principal (Django user row): opaque id, email, authentication flag. -/
structure User where
  id : Nat
  email : String
  is_authenticated : Bool
deriving DecidableEq, Repr

/-- An `Organization` row. -/
structure Organization where
  id : Nat
  owner_id : Nat
  super_organization_id : Option Nat
  permissions_policy : Option PolicyDoc
deriving DecidableEq, Repr

/-- A `Member` row. -/
structure Member where
  id : Nat
  organization_id : Nat
  user_id : Nat
  permission_level : Int
  invitation_id : Option Nat
deriving DecidableEq, Repr

/-- `InvitationStatus` from `organization/models.py` (imported by the
service; the five statuses are named throughout `services.py` and §3 of
the design). -/
inductive InvitationStatus where
  | pending
  | accepted
  | declined
  | canceled
  | expired
deriving DecidableEq, Repr

/-- An `Invitation` row.  `expires_at` is an absolute timestamp modelled
as an integer instant. -/
structure Invitation where
  id : Nat
  organization_id : Nat
  inviter_id : Nat
  email : String
  permission_level : Int
  expires_at : Int
  status : InvitationStatus
deriving DecidableEq, Repr

/-- The relational store: one list of rows per entity, plus a fresh-id
counter for `objects.create`. -/
structure DB where
  users : List User
  organizations : List Organization
  members : List Member
  invitations : List Invitation
  nextId : Nat
deriving DecidableEq, Repr

/-- The error kinds the service raises: `ValueError` (invalid argument,
also covering a policy document failing schema validation),
`django.core.exceptions.PermissionDenied`, and
`OrganizationServiceException(code=...)` for domain conflicts. -/
inductive ServiceError where
  | valueError
  | permissionDenied
  | conflict (code : String)
deriving DecidableEq, Repr

/-- Unique-id lookup of an organization row, as Django's attribute access
`x.organization` resolves `organization_id`. -/
def findOrg (db : DB) (oid : Nat) : Option Organization :=
  db.organizations.find? (fun o => o.id == oid)

/-- Resolve a member's `user__email` join: the email of the user row the
member's `user_id` references. -/
def userEmail (db : DB) (uid : Nat) : Option String :=
  (db.users.find? (fun u => u.id == uid)).map User.email

/-- `OrganizationService._validate_permissions_policy`: `None` raises
`ValueError`; otherwise `jsonschema.validate` against
`PERMISSIONS_POLICY_SCHEMA`, a failure being re-raised as `ValueError`. -/
def validatePermissionsPolicy (permissions_policy : Option PolicyDoc) :
    Except ServiceError Unit :=
  match permissions_policy with
  | none => .error .valueError
  | some d => if schemaValid d then .ok () else .error .valueError

/-- The membership queryset used by version-0 and version-1 checks:
`member_model.objects.filter(user_id=..., organization_id=...,
permission_level__gte=...)`. -/
def memberGteQS (db : DB) (uid oid : Nat) (lvl : Int) : List Member :=
  db.members.filter
    (fun m => m.user_id == uid && m.organization_id == oid &&
      decide (lvl ≤ m.permission_level))

/-- Python truthiness of `statement[action] != 0`: a string is always
`!= 0`; a number is `!= 0` iff it differs from zero. -/
def jvalNeZero (v : JVal) : Bool :=
  match v with
  | JVal.jnum n => n != 0
  | JVal.jstr _ => true

/-- Django coerces the value handed to `permission_level__gte` on an
integer field: numbers compare directly, numeric strings are parsed and a
non-numeric string raises. -/
def jvalAsLevel (v : JVal) : Option Int :=
  match v with
  | JVal.jnum n => some n
  | JVal.jstr s => s.toInt?

/-- `OrganizationService._check_user_permission`: empty/missing arguments
raise `ValueError`; the organization's stored policy (falsy replaced by
`{'version': 0}`) is schema-validated, then dispatched on `version`:
version 0 requires an OWNER-level membership, version 1 consults
`statement` (absent action ⇒ allowed, level 0 ⇒ allowed, otherwise a
`permission_level__gte` membership must exist), any other version raises
`PermissionDenied`. -/
def checkUserPermission (db : DB) (action : String)
    (organization : Option Organization) (user : Option User) :
    Except ServiceError Unit :=
  match organization, user with
  | some org, some u =>
    if action = "" then .error .valueError
    else
      let pp :=
        match org.permissions_policy with
        | none => DEFAULT_PERMISSIONS_POLICY
        | some d => if d.isEmptyDict then DEFAULT_PERMISSIONS_POLICY else d
      match validatePermissionsPolicy (some pp) with
      | .error e => .error e
      | .ok _ =>
        let version := pp.version.getD (JVal.jnum 0)
        if version = JVal.jnum 0 then
          if (memberGteQS db u.id org.id OWNER).isEmpty then
            .error .permissionDenied
          else .ok ()
        else if version = JVal.jnum 1 then
          let statement := pp.statement.getD []
          match statement.lookup action with
          | none => .ok ()
          | some pl =>
            if jvalNeZero pl then
              match jvalAsLevel pl with
              | none => .error .valueError
              | some k =>
                if (memberGteQS db u.id org.id k).isEmpty then
                  .error .permissionDenied
                else .ok ()
            else .ok ()
        else .error .permissionDenied
  | _, _ => .error .valueError

/-- `member.save(update_fields=['permission_level'])`: update the stored
row with this id. -/
def setMemberLevel (db : DB) (mid : Nat) (lvl : Int) : DB :=
  let f := fun (m : Member) =>
    if m.id == mid then { m with permission_level := lvl } else m
  { db with members := db.members.map f }

/-- `organization.save(update_fields=['owner'])`. -/
def setOrgOwner (db : DB) (oid : Nat) (uid : Nat) : DB :=
  let f := fun (o : Organization) =>
    if o.id == oid then { o with owner_id := uid } else o
  { db with organizations := db.organizations.map f }

/-- `organization.save(update_fields=['permissions_policy'])`. -/
def setOrgPolicy (db : DB) (oid : Nat) (d : PolicyDoc) : DB :=
  let f := fun (o : Organization) =>
    if o.id == oid then { o with permissions_policy := some d } else o
  { db with organizations := db.organizations.map f }

/-- `invitation.save(update_fields=['status'])`. -/
def setInvitationStatus (db : DB) (iid : Nat) (st : InvitationStatus) : DB :=
  let f := fun (i : Invitation) =>
    if i.id == iid then { i with status := st } else i
  { db with invitations := db.invitations.map f }

/-- The result of a mutating service call: the database as updated so far
(the source has no enclosing transaction, each `save`/`create` lands
immediately) together with the returned object or the raised error. -/
def Res (α : Type) : Type := DB × Except ServiceError α

/-- `OrganizationService.create_organization`: requires a request user,
validates the default policy, then creates an Organization owned by the
request user with `DEFAULT_PERMISSIONS_POLICY`.  No permission check and
no other row is touched. -/
def createOrganization (db : DB) (request_user : Option User) :
    Res Organization :=
  match request_user with
  | none => (db, .error .valueError)
  | some u =>
    match validatePermissionsPolicy (some DEFAULT_PERMISSIONS_POLICY) with
    | .error e => (db, .error e)
    | .ok _ =>
      let org : Organization :=
        { id := db.nextId
          owner_id := u.id
          super_organization_id := none
          permissions_policy := some DEFAULT_PERMISSIONS_POLICY }
      ({ db with organizations := db.organizations ++ [org],
                 nextId := db.nextId + 1 }, .ok org)

/-- `OrganizationService.create_owner`: requires both arguments and an
authenticated user, then creates a Member at `PermissionLevel.OWNER` for
the user in the organization, with no `invitation` back-reference and no
permission check. -/
def createOwner (db : DB) (organization : Option Organization)
    (user : Option User) : Res Member :=
  match organization, user with
  | some org, some u =>
    if !u.is_authenticated then (db, .error .valueError)
    else
      let member : Member :=
        { id := db.nextId
          organization_id := org.id
          user_id := u.id
          permission_level := OWNER
          invitation_id := none }
      ({ db with members := db.members ++ [member],
                 nextId := db.nextId + 1 }, .ok member)
  | _, _ => (db, .error .valueError)

/-- `OrganizationService.update_organization_policy`: requires the
organization and request user, authorizes `update_organization_policy`
against the organization's current policy, then validates the supplied
document and stores it; a document failing validation raises before any
write. -/
def updateOrganizationPolicy (db : DB)
    (permissions_policy : Option PolicyDoc)
    (organization : Option Organization) (request_user : Option User) :
    Res Organization :=
  match organization, request_user with
  | some org, some ru =>
    match checkUserPermission db "update_organization_policy" (some org) (some ru) with
    | .error e => (db, .error e)
    | .ok _ =>
      match validatePermissionsPolicy permissions_policy with
      | .error e => (db, .error e)
      | .ok _ =>
        match permissions_policy with
        | none => (db, .error .valueError)
        | some d =>
          (setOrgPolicy db org.id d, .ok { org with permissions_policy := some d })
  | _, _ => (db, .error .valueError)

/-- Modelled from the spec: the `Invitation` model's default
`permission_level` lives in `organization/models.py`, which is absent from
the sources; the spec says it "defaults to a baseline below OWNER".  We
fix a baseline strictly below `OWNER`. -/
def DEFAULT_INVITATION_LEVEL : Int := 1

/-- `OrganizationService.create_invitation`: requires email, expiry,
organization and request user; raises the `already_invited` conflict when
any invitation to that email exists in the organization (the queryset has
no status filter), then the `already_joined` conflict when a member row
joins to a user with that email; only then authorizes `create_invitation`;
finally creates the invitation PENDING, using the supplied
`permission_level` only when it is truthy (non-`None` and non-zero). -/
def createInvitation (db : DB) (email : Option String)
    (expires_at : Option Int) (organization : Option Organization)
    (permission_level : Option Int) (request_user : Option User) :
    Res Invitation :=
  match email, expires_at, organization, request_user with
  | some em, some exp, some org, some ru =>
    if !(db.invitations.filter
        (fun i => i.organization_id == org.id && i.email == em)).isEmpty then
      (db, .error (.conflict "already_invited"))
    else if !(db.members.filter
        (fun m => m.organization_id == org.id &&
          userEmail db m.user_id == some em)).isEmpty then
      (db, .error (.conflict "already_joined"))
    else
      match checkUserPermission db "create_invitation" (some org) (some ru) with
      | .error e => (db, .error e)
      | .ok _ =>
        let lvl :=
          match permission_level with
          | some pl => if pl != 0 then pl else DEFAULT_INVITATION_LEVEL
          | none => DEFAULT_INVITATION_LEVEL
        let inv : Invitation :=
          { id := db.nextId
            organization_id := org.id
            inviter_id := ru.id
            email := em
            permission_level := lvl
            expires_at := exp
            status := .pending }
        ({ db with invitations := db.invitations ++ [inv],
                   nextId := db.nextId + 1 }, .ok inv)
  | _, _, _, _ => (db, .error .valueError)

/-- `OrganizationService.accept_invitation`: requires the invitation and
request user, a PENDING status and `expires_at` strictly after `now()`;
then saves the status as ACCEPTED and creates a Member for the request
user at the invitation's `permission_level`, back-referencing the
invitation.  `tnow` is the instant `now()` returns. -/
def acceptInvitation (db : DB) (invitation : Option Invitation)
    (request_user : Option User) (tnow : Int) : Res Member :=
  match invitation, request_user with
  | some inv, some ru =>
    if inv.status ≠ InvitationStatus.pending then (db, .error .valueError)
    else if inv.expires_at ≤ tnow then (db, .error .valueError)
    else
      let db1 := setInvitationStatus db inv.id .accepted
      match findOrg db1 inv.organization_id with
      | none => (db1, .error .valueError)
      | some org =>
        let member : Member :=
          { id := db1.nextId
            organization_id := org.id
            user_id := ru.id
            permission_level := inv.permission_level
            invitation_id := some inv.id }
        ({ db1 with members := db1.members ++ [member],
                    nextId := db1.nextId + 1 }, .ok member)
  | _, _ => (db, .error .valueError)

/-- `OrganizationService.get_member_set`: with neither argument, the empty
queryset; scoped to an organization, authorizes `get_member_set` then
filters by `organization_id`; otherwise filters by the request user's
`user_id` with no permission check. -/
def getMemberSet (db : DB) (organization : Option Organization)
    (request_user : Option User) : Except ServiceError (List Member) :=
  match organization, request_user with
  | none, none => .ok []
  | some org, ru =>
    match checkUserPermission db "get_member_set" (some org) ru with
    | .error e => .error e
    | .ok _ => .ok (db.members.filter (fun m => m.organization_id == org.id))
  | none, some u => .ok (db.members.filter (fun m => m.user_id == u.id))

/-- `OrganizationService.get_member`: requires id and request user; the
base queryset is the supplied one, else the organization's members, else
all members; filtered by id and fetched with `.get()` (no row returns
`None`, several raise).  When a row is found, `get_member` is authorized
against the given organization or, absent one, the found member's
organization. -/
def getMember (db : DB) (id : Option Nat)
    (organization : Option Organization) (request_user : Option User)
    (queryset : Option (List Member)) : Except ServiceError (Option Member) :=
  match id, request_user with
  | some mid, some ru =>
    let member_set :=
      match queryset with
      | some qs => qs
      | none =>
        match organization with
        | some org => db.members.filter (fun m => m.organization_id == org.id)
        | none => db.members
    match member_set.filter (fun m => m.id == mid) with
    | [] => .ok none
    | [m] =>
      let org :=
        match organization with
        | some org => some org
        | none => findOrg db m.organization_id
      match org with
      | none => .error .valueError
      | some o =>
        match checkUserPermission db "get_member" (some o) (some ru) with
        | .error e => .error e
        | .ok _ => .ok (some m)
    | _ => .error .valueError
  | _, _ => .error .valueError

/-- `OrganizationService.get_invitation_set`: with neither argument, the
empty queryset; scoped to an organization, authorizes `get_invitation_set`
then filters by `organization_id`; otherwise filters by the request
user's email with no permission check.  Either way only unexpired PENDING
invitations are returned. -/
def getInvitationSet (db : DB) (organization : Option Organization)
    (request_user : Option User) (tnow : Int) :
    Except ServiceError (List Invitation) :=
  match organization, request_user with
  | none, none => .ok []
  | some org, ru =>
    match checkUserPermission db "get_invitation_set" (some org) ru with
    | .error e => .error e
    | .ok _ =>
      .ok ((db.invitations.filter (fun i => i.organization_id == org.id)).filter
        (fun i => decide (tnow < i.expires_at) &&
          i.status == InvitationStatus.pending))
  | none, some u =>
    .ok ((db.invitations.filter (fun i => i.email == u.email)).filter
      (fun i => decide (tnow < i.expires_at) &&
        i.status == InvitationStatus.pending))

/-- `OrganizationService.get_invitation`: requires id and request user;
the base queryset is the supplied one, else the organization's
invitations, else those addressed to the request user's email; filtered to
unexpired, matching id, PENDING, and fetched with `.get()`.  No permission
check is performed on any path. -/
def getInvitation (db : DB) (id : Option Nat)
    (organization : Option Organization) (request_user : Option User)
    (queryset : Option (List Invitation)) (tnow : Int) :
    Except ServiceError (Option Invitation) :=
  match id, request_user with
  | some iid, some ru =>
    let invitation_set :=
      match queryset with
      | some qs => qs
      | none =>
        match organization with
        | some org => db.invitations.filter (fun i => i.organization_id == org.id)
        | none => db.invitations.filter (fun i => i.email == ru.email)
    let invitation_set :=
      ((invitation_set.filter (fun i => decide (tnow < i.expires_at))).filter
        (fun i => i.id == iid)).filter
        (fun i => i.status == InvitationStatus.pending)
    match invitation_set with
    | [] => .ok none
    | [i] => .ok (some i)
    | _ => .error .valueError
  | _, _ => .error .valueError

/-- `OrganizationService.update_member_permission`: requires member, an
integer level and a request user; returns the member untouched when the
level already matches, before any permission or policy work; otherwise
authorizes `update_member_permission` against the member's organization;
when the member is the OWNER-level member matching the organization's
`owner`, a `new_owner` who already holds an OWNER-level member row in the
organization is required, the `owner` field is reassigned to them, and
only then is the member's level saved. -/
def updateMemberPermission (db : DB) (member : Option Member)
    (new_owner : Option User) (permission_level : Option Int)
    (request_user : Option User) : Res Member :=
  match member, permission_level, request_user with
  | some m, some pl, some ru =>
    if m.permission_level = pl then (db, .ok m)
    else
      match findOrg db m.organization_id with
      | none => (db, .error .valueError)
      | some org =>
        match checkUserPermission db "update_member_permission" (some org) (some ru) with
        | .error e => (db, .error e)
        | .ok _ =>
          if m.permission_level == OWNER && m.user_id == org.owner_id then
            match new_owner with
            | none => (db, .error .valueError)
            | some no =>
              if ((db.members.filter
                    (fun r => r.organization_id == m.organization_id)).filter
                    (fun r => r.user_id == no.id)).filter
                    (fun r => r.permission_level == OWNER) |>.isEmpty then
                (db, .error .valueError)
              else
                let db1 := setOrgOwner db org.id no.id
                let db2 := setMemberLevel db1 m.id pl
                (db2, .ok { m with permission_level := pl })
          else
            let db2 := setMemberLevel db m.id pl
            (db2, .ok { m with permission_level := pl })
  | _, _, _ => (db, .error .valueError)

/-! ### Helper lemmas -/

/-- The `permission_level__gte` membership queryset is empty exactly when
no stored member row matches user, organization and level bound. -/
theorem memberGteQS_isEmpty_iff (db : DB) (uid oid : Nat) (lvl : Int) :
    (memberGteQS db uid oid lvl).isEmpty = true ↔
      ∀ m ∈ db.members,
        ¬(m.user_id = uid ∧ m.organization_id = oid ∧ lvl ≤ m.permission_level) := by
  rw [List.isEmpty_iff, memberGteQS, List.filter_eq_nil_iff]
  apply forall_congr'
  intro m
  apply imp_congr_right
  intro _
  constructor
  · intro h hc
    rcases hc with ⟨h1, h2, h3⟩
    simp [h1, h2, h3] at h
  · intro h
    simp only [Bool.not_eq_true, Bool.and_eq_false_iff]
    by_cases h1 : m.user_id = uid
    · by_cases h2 : m.organization_id = oid
      · by_cases h3 : lvl ≤ m.permission_level
        · exact absurd ⟨h1, h2, h3⟩ h
        · exact Or.inr (by simpa using h3)
      · exact Or.inl (Or.inr (by simpa using h2))
    · exact Or.inl (Or.inl (by simpa using h1))

/-- Reduction of `_check_user_permission` for an organization whose
stored policy has an integer `version` key: the evaluator dispatches on
that version. -/
theorem checkUserPermission_policy (db : DB) (action : String)
    (org : Organization) (u : User) (d : PolicyDoc) (n : Int)
    (hact : action ≠ "") (hpol : org.permissions_policy = some d)
    (hver : d.version = some (JVal.jnum n)) :
    checkUserPermission db action (some org) (some u) =
      (if n = 0 then
        (if (memberGteQS db u.id org.id OWNER).isEmpty then
          Except.error ServiceError.permissionDenied
         else Except.ok ())
       else if n = 1 then
        (match (d.statement.getD []).lookup action with
         | none => Except.ok ()
         | some pl =>
           if jvalNeZero pl then
             match jvalAsLevel pl with
             | none => Except.error ServiceError.valueError
             | some k =>
               if (memberGteQS db u.id org.id k).isEmpty then
                 Except.error ServiceError.permissionDenied
               else Except.ok ()
           else Except.ok ())
       else Except.error ServiceError.permissionDenied) := by
  simp only [checkUserPermission, if_neg hact, hpol, PolicyDoc.isEmptyDict, hver,
    validatePermissionsPolicy, schemaValid, Option.getD, JVal.jnum.injEq]
  simp [hver]

/-! ### Concrete fixture rows used by witnesses and counterexamples -/

/-- A first authenticated user. -/
def userA : User := { id := 1, email := "a@x.com", is_authenticated := true }

/-- A second authenticated user. -/
def userB : User := { id := 2, email := "b@x.com", is_authenticated := true }

/-- An organization owned by `userA` under the default owners-only
version-0 policy. -/
def orgClosed : Organization :=
  { id := 10, owner_id := 1, super_organization_id := none
    permissions_policy := some { version := some (JVal.jnum 0), statement := none } }

/-- An organization owned by `userA` under a version-1 policy with an
empty `statement`, so every action is implicitly allowed. -/
def orgOpen : Organization :=
  { id := 11, owner_id := 1, super_organization_id := none
    permissions_policy := some { version := some (JVal.jnum 1), statement := some [] } }

/-- A store holding both users and both organizations, `userB` a plain
member of `orgClosed` at level 1, and no invitations. -/
def dbFix : DB :=
  { users := [userA, userB]
    organizations := [orgClosed, orgOpen]
    members := [{ id := 20, organization_id := 10, user_id := 2,
                  permission_level := 1, invitation_id := none }]
    invitations := []
    nextId := 50 }

/-- A version-1 policy restricting `edit` to level 1 and declaring
`open_action` public. -/
def policyV1 : PolicyDoc :=
  { version := some (JVal.jnum 1)
    statement := some [("edit", JVal.jnum 1), ("open_action", JVal.jnum 0)] }

/-- An organization governed by `policyV1`. -/
def orgV1 : Organization :=
  { id := 30, owner_id := 1, super_organization_id := none
    permissions_policy := some policyV1 }

/-- An organization whose policy carries the unrecognized version 7. -/
def orgV7 : Organization :=
  { id := 31, owner_id := 1, super_organization_id := none
    permissions_policy := some { version := some (JVal.jnum 7), statement := none } }

/-- A store with `orgClosed`, `orgV1` and `orgV7`, where `userB` is a
level-1 member of `orgV1` and `userA` an OWNER-level member of
`orgClosed`. -/
def dbV1 : DB :=
  { users := [userA, userB]
    organizations := [orgClosed, orgV1, orgV7]
    members := [{ id := 20, organization_id := 30, user_id := 2,
                  permission_level := 1, invitation_id := none },
                { id := 21, organization_id := 10, user_id := 1,
                  permission_level := OWNER, invitation_id := none }]
    invitations := []
    nextId := 90 }

/-- A pending invitation of `userB` to `orgOpen` at level 5, expiring at
instant 1000. -/
def invB : Invitation :=
  { id := 40, organization_id := 11, inviter_id := 1, email := "b@x.com"
    permission_level := 5, expires_at := 1000, status := .pending }

/-- A store holding `orgOpen` and the pending invitation `invB`. -/
def dbInv : DB :=
  { users := [userA, userB]
    organizations := [orgOpen]
    members := []
    invitations := [invB]
    nextId := 60 }

/-! ### C3 -/

/-- C3: under a version-1 policy document, an action absent from the
`statement` mapping is allowed for every principal; an action mapped to
level `0` is allowed for every principal with no membership lookup; and
an action mapped to an integer level `k > 0` is allowed exactly when the
principal holds a member row in the organization with
`permission_level ≥ k`, the check otherwise failing with Permission
Denied. -/
theorem version1_policy_semantics (db : DB) (org : Organization) (u : User)
    (action : String) (d : PolicyDoc)
    (hpol : org.permissions_policy = some d)
    (hver : d.version = some (JVal.jnum 1))
    (hact : action ≠ "") :
    ((d.statement.getD []).lookup action = none →
      checkUserPermission db action (some org) (some u) = .ok ()) ∧
    ((d.statement.getD []).lookup action = some (JVal.jnum 0) →
      checkUserPermission db action (some org) (some u) = .ok ()) ∧
    (∀ k : Int, 0 < k →
      (d.statement.getD []).lookup action = some (JVal.jnum k) →
      ((∃ m ∈ db.members, m.user_id = u.id ∧ m.organization_id = org.id ∧
          k ≤ m.permission_level) →
        checkUserPermission db action (some org) (some u) = .ok ()) ∧
      (¬(∃ m ∈ db.members, m.user_id = u.id ∧ m.organization_id = org.id ∧
          k ≤ m.permission_level) →
        checkUserPermission db action (some org) (some u) =
          .error .permissionDenied)) := by
  rw [checkUserPermission_policy db action org u d 1 hact hpol hver,
    if_neg (by norm_num : ¬(1 : Int) = 0), if_pos rfl]
  refine ⟨fun hl => by simp [hl], fun hl => by simp [hl, jvalNeZero], ?_⟩
  intro k hk hl
  constructor
  · intro hex
    have hne : (memberGteQS db u.id org.id k).isEmpty = false := by
      obtain ⟨m, hm, hprop⟩ := hex
      cases hq : (memberGteQS db u.id org.id k).isEmpty with
      | false => rfl
      | true =>
        exact absurd hprop ((memberGteQS_isEmpty_iff db u.id org.id k).mp hq m hm)
    simp [hl, jvalNeZero, jvalAsLevel, hne, bne_iff_ne, show k ≠ 0 by omega]
  · intro hnex
    have hemp : (memberGteQS db u.id org.id k).isEmpty = true := by
      rw [memberGteQS_isEmpty_iff]
      intro m hm hprop
      exact hnex ⟨m, hm, hprop⟩
    simp [hl, jvalNeZero, jvalAsLevel, hemp, bne_iff_ne, show k ≠ 0 by omega]

/-- Witness for C3: on the fixture store, under a version-1 policy with
`statement` mapping `edit` to level `1`, member `userB` (level 1) of
`orgClosed` passes the check while unrestricted and level-0 actions pass
for anyone. -/
theorem version1_policy_semantics_witness :
    (checkUserPermission dbV1 "edit" (some orgV1) (some userB) = .ok ()) ∧
    (checkUserPermission dbV1 "free" (some orgV1) (some userA) = .ok ()) ∧
    (checkUserPermission dbV1 "open_action" (some orgV1) (some userA) = .ok ()) := by
  have h1 := version1_policy_semantics dbV1 orgV1 userB "edit" policyV1
    rfl rfl (by decide)
  have h2 := version1_policy_semantics dbV1 orgV1 userA "free" policyV1
    rfl rfl (by decide)
  have h3 := version1_policy_semantics dbV1 orgV1 userA "open_action" policyV1
    rfl rfl (by decide)
  refine ⟨?_, ?_, ?_⟩
  · refine ((h1.2.2 1 (by norm_num) (by rfl)).1 ?_)
    refine ⟨⟨20, 30, 2, 1, none⟩, by decide, by decide⟩
  · exact h2.1 rfl
  · exact h3.2.1 rfl

/-! ### C4 -/

/-- C4: under a version-0 policy document every action requires an
OWNER-level membership — a principal without a member row at
`permission_level ≥ OWNER` is denied, one with such a row is allowed —
and under any version other than 0 and 1 every action by every principal
fails with Permission Denied. -/
theorem version0_and_unknown_version_semantics (db : DB) (org : Organization)
    (u : User) (action : String) (d : PolicyDoc)
    (hpol : org.permissions_policy = some d)
    (hact : action ≠ "") :
    (d.version = some (JVal.jnum 0) →
      ((∃ m ∈ db.members, m.user_id = u.id ∧ m.organization_id = org.id ∧
          OWNER ≤ m.permission_level) →
        checkUserPermission db action (some org) (some u) = .ok ()) ∧
      (¬(∃ m ∈ db.members, m.user_id = u.id ∧ m.organization_id = org.id ∧
          OWNER ≤ m.permission_level) →
        checkUserPermission db action (some org) (some u) =
          .error .permissionDenied)) ∧
    (∀ v : Int, v ≠ 0 → v ≠ 1 → d.version = some (JVal.jnum v) →
      checkUserPermission db action (some org) (some u) =
        .error .permissionDenied) := by
  constructor
  · intro hver
    rw [checkUserPermission_policy db action org u d 0 hact hpol hver, if_pos rfl]
    constructor
    · intro hex
      have hne : (memberGteQS db u.id org.id OWNER).isEmpty = false := by
        obtain ⟨m, hm, hprop⟩ := hex
        cases hq : (memberGteQS db u.id org.id OWNER).isEmpty with
        | false => rfl
        | true =>
          exact absurd hprop ((memberGteQS_isEmpty_iff db u.id org.id OWNER).mp hq m hm)
      simp [hne]
    · intro hnex
      have hemp : (memberGteQS db u.id org.id OWNER).isEmpty = true := by
        rw [memberGteQS_isEmpty_iff]
        intro m hm hprop
        exact hnex ⟨m, hm, hprop⟩
      simp [hemp]
  · intro v hv0 hv1 hver
    rw [checkUserPermission_policy db action org u d v hact hpol hver,
      if_neg hv0, if_neg hv1]

/-- Witness for C4: on the fixture store, `userA` (the OWNER-level
member) passes any action against the owners-only `orgClosed`, `userB`
(level 1) is denied, and a version-7 policy denies even the owner. -/
theorem version0_and_unknown_version_semantics_witness :
    (checkUserPermission dbV1 "anything" (some orgClosed) (some userA) = .ok ()) ∧
    (checkUserPermission dbV1 "anything" (some orgClosed) (some userB) =
      .error .permissionDenied) ∧
    (checkUserPermission dbV1 "anything" (some orgV7) (some userA) =
      .error .permissionDenied) := by
  have hA := version0_and_unknown_version_semantics dbV1 orgClosed userA "anything"
    { version := some (JVal.jnum 0), statement := none } rfl (by decide)
  have hB := version0_and_unknown_version_semantics dbV1 orgClosed userB "anything"
    { version := some (JVal.jnum 0), statement := none } rfl (by decide)
  have hV := version0_and_unknown_version_semantics dbV1 orgV7 userA "anything"
    { version := some (JVal.jnum 7), statement := none } rfl (by decide)
  refine ⟨?_, ?_, ?_⟩
  · refine (hA.1 rfl).1 ⟨⟨21, 10, 1, OWNER, none⟩, by decide, by decide⟩
  · exact (hB.1 rfl).2 (by decide)
  · exact hV.2 7 (by norm_num) (by norm_num) rfl

/-! ### C9 -/

/-- C9: `update_member_permission` called with a level equal to the
member's current `permission_level` returns the member unchanged and
leaves the store untouched, for every store, requesting principal and
`new_owner` — in particular it never raises Permission Denied and its
outcome is independent of the organization's policy document, so no
policy read or authorization check takes place. -/
theorem updateMemberPermission_noop (db : DB) (m : Member) (no : Option User)
    (pl : Int) (ru : User) (h : m.permission_level = pl) :
    updateMemberPermission db (some m) no (some pl) (some ru) = (db, .ok m) := by
  simp [updateMemberPermission, h]

/-- Witness for C9: demoting-to-the-same-level request on the fixture
member, in a store whose organization has the owners-only policy and a
requesting principal with no membership at all, still returns the member
unchanged. -/
theorem updateMemberPermission_noop_witness :
    updateMemberPermission dbFix
        (some { id := 20, organization_id := 10, user_id := 2,
                permission_level := 1, invitation_id := none })
        none (some 1) (some userB) = (dbFix, .ok
        { id := 20, organization_id := 10, user_id := 2,
          permission_level := 1, invitation_id := none }) :=
  updateMemberPermission_noop dbFix _ none 1 userB rfl

/-! ### C10 -/

/-- C10: `create_invitation` with `permission_level` explicitly supplied
as `0` behaves exactly as if the argument had been omitted (Python
truthiness makes `0` fall through to the model default), and no
successful call can ever produce an invitation whose granted level is
`0`. -/
theorem createInvitation_zero_level (db : DB) (em : Option String)
    (exp : Option Int) (org : Option Organization) (ru : Option User) :
    createInvitation db em exp org (some 0) ru =
      createInvitation db em exp org none ru ∧
    ∀ pl db' inv, createInvitation db em exp org pl ru = (db', .ok inv) →
      inv.permission_level ≠ 0 := by
  constructor
  · simp [createInvitation]
  · intro pl db' inv h hzero
    match em, exp, org, ru with
    | some em, some exp, some org, some ru =>
      simp only [createInvitation] at h
      split at h
      · exact nomatch congrArg Prod.snd h
      · split at h
        · exact nomatch congrArg Prod.snd h
        · split at h
          · exact nomatch congrArg Prod.snd h
          · have hinv := congrArg Prod.snd h
            simp only [Except.ok.injEq] at hinv
            have hlvl := congrArg Invitation.permission_level hinv
            rw [hzero] at hlvl
            match pl with
            | none =>
              dsimp only at hlvl
              exact absurd hlvl (by norm_num [DEFAULT_INVITATION_LEVEL])
            | some p =>
              dsimp only at hlvl
              by_cases hp : p = 0
              · subst hp
                exact absurd hlvl (by norm_num [DEFAULT_INVITATION_LEVEL])
              · rw [if_pos (show (p != 0) = true by simp [hp])] at hlvl
                exact hp hlvl
    | none, _, _, _ => exact nomatch congrArg Prod.snd h
    | some _, none, _, _ => exact nomatch congrArg Prod.snd h
    | some _, some _, none, _ => exact nomatch congrArg Prod.snd h
    | some _, some _, some _, none => exact nomatch congrArg Prod.snd h

/-- Witness for C10: on the fixture store, inviting a fresh address to
the open organization with an explicit level `0` creates the invitation
at the model default level, exactly as the omitted-argument call does. -/
theorem createInvitation_zero_level_witness :
    createInvitation dbFix (some "c@x.com") (some 2000) (some orgOpen)
        (some 0) (some userA) =
      createInvitation dbFix (some "c@x.com") (some 2000) (some orgOpen)
        none (some userA) ∧
    ∀ db' inv, createInvitation dbFix (some "c@x.com") (some 2000)
        (some orgOpen) (some 0) (some userA) = (db', .ok inv) →
      inv.permission_level ≠ 0 := by
  refine ⟨(createInvitation_zero_level dbFix (some "c@x.com") (some 2000)
    (some orgOpen) (some userA)).1, ?_⟩
  intro db' inv h
  exact (createInvitation_zero_level dbFix (some "c@x.com") (some 2000)
    (some orgOpen) (some userA)).2 (some 0) db' inv h

/-! ### C8 -/

/-- C8: `update_organization_policy` schema-validates the supplied
document on every write: for a document failing validation the store is
left untouched (in particular the organization's stored policy is
unchanged), the call raises rather than coercing or storing, and — when
the caller passes the authorization gate — the raised error is the
invalid-argument error the validator uses for schema failures. -/
theorem updateOrganizationPolicy_rejects_invalid (db : DB) (d : PolicyDoc)
    (org : Organization) (ru : User)
    (hinv : schemaValid d = false) :
    (updateOrganizationPolicy db (some d) (some org) (some ru)).1 = db ∧
    (∃ e, (updateOrganizationPolicy db (some d) (some org) (some ru)).2 =
      .error e) ∧
    (checkUserPermission db "update_organization_policy" (some org) (some ru) =
        .ok () →
      (updateOrganizationPolicy db (some d) (some org) (some ru)).2 =
        .error .valueError) := by
  simp only [updateOrganizationPolicy]
  cases hc : checkUserPermission db "update_organization_policy" (some org) (some ru) with
  | error e => simp [hc]
  | ok v =>
    cases v
    simp [validatePermissionsPolicy, hinv]

/-- Witness for C8: on the fixture store, `userB` passes the version-1
policy of `orgV1` for this action (it is absent from the `statement`),
yet a document missing its `version` key is rejected with the
invalid-argument error and the store is unchanged. -/
theorem updateOrganizationPolicy_rejects_invalid_witness :
    (updateOrganizationPolicy dbV1 (some { version := none, statement := none })
      (some orgV1) (some userB)).1 = dbV1 ∧
    (updateOrganizationPolicy dbV1 (some { version := none, statement := none })
      (some orgV1) (some userB)).2 = .error .valueError := by
  have h := updateOrganizationPolicy_rejects_invalid dbV1
    { version := none, statement := none } orgV1 userB rfl
  exact ⟨h.1, h.2.2 rfl⟩

/-! ### C5 -/

/-- C5: `accept_invitation` succeeds only from a PENDING invitation whose
expiry is strictly in the future; on success it marks the invitation
ACCEPTED and appends exactly one new member row for the accepting
principal carrying the invitation's `permission_level` and a
back-reference to the invitation; on an expired invitation it fails and
the store — hence the stored PENDING status — is untouched. -/
theorem acceptInvitation_spec (db : DB) (inv : Invitation) (ru : User)
    (tnow : Int) :
    (∀ db' mem, acceptInvitation db (some inv) (some ru) tnow = (db', .ok mem) →
      inv.status = .pending ∧ tnow < inv.expires_at) ∧
    (∀ org, inv.status = .pending → tnow < inv.expires_at →
      findOrg db inv.organization_id = some org →
      ∃ db' mem, acceptInvitation db (some inv) (some ru) tnow = (db', .ok mem) ∧
        db'.members = db.members ++ [mem] ∧
        mem.permission_level = inv.permission_level ∧
        mem.invitation_id = some inv.id ∧
        mem.user_id = ru.id ∧
        db'.invitations = (setInvitationStatus db inv.id .accepted).invitations) ∧
    (inv.expires_at ≤ tnow →
      acceptInvitation db (some inv) (some ru) tnow = (db, .error .valueError)) := by
  refine ⟨?_, ?_, ?_⟩
  · intro db' mem h
    constructor
    · by_contra hst
      simp only [acceptInvitation, if_pos hst] at h
      exact nomatch congrArg Prod.snd h
    · by_contra hexp
      push_neg at hexp
      by_cases hst : inv.status = .pending
      · simp only [acceptInvitation, if_neg (show ¬inv.status ≠ .pending by simp [hst]),
          if_pos hexp] at h
        exact nomatch congrArg Prod.snd h
      · simp only [acceptInvitation, if_pos hst] at h
        exact nomatch congrArg Prod.snd h
  · intro org hpend hfut horg
    refine ⟨{ setInvitationStatus db inv.id .accepted with
              members := db.members ++
                [{ id := db.nextId, organization_id := org.id, user_id := ru.id,
                   permission_level := inv.permission_level,
                   invitation_id := some inv.id }],
              nextId := db.nextId + 1 },
            { id := db.nextId, organization_id := org.id, user_id := ru.id,
              permission_level := inv.permission_level,
              invitation_id := some inv.id }, ?_, rfl, rfl, rfl, rfl, rfl⟩
    simp only [acceptInvitation, if_neg (show ¬inv.status ≠ .pending by simp [hpend]),
      if_neg (show ¬inv.expires_at ≤ tnow by omega)]
    rw [show findOrg (setInvitationStatus db inv.id .accepted) inv.organization_id =
      some org from horg]
    rfl
  · intro hexp
    by_cases hst : inv.status = .pending
    · simp only [acceptInvitation, if_neg (show ¬inv.status ≠ .pending by simp [hst]),
        if_pos hexp]
    · simp only [acceptInvitation, if_pos hst]

/-- Witness for C5: accepting `invB` at instant 0 in the fixture store
creates the one member row at the invitation's level 5 with the
back-reference to invitation 40, and flips the stored status. -/
theorem acceptInvitation_spec_witness :
    ∃ db' mem, acceptInvitation dbInv (some invB) (some userB) 0 = (db', .ok mem) ∧
      db'.members = dbInv.members ++ [mem] ∧
      mem.permission_level = invB.permission_level ∧
      mem.invitation_id = some invB.id ∧
      mem.user_id = userB.id ∧
      db'.invitations = (setInvitationStatus dbInv invB.id .accepted).invitations :=
  (acceptInvitation_spec dbInv invB userB 0).2.1 orgOpen rfl (by decide) rfl

/-! ### C2 -/

/-- C2: demoting the member who is the current OWNER-level member backing
the organization's `owner` field fails whenever no valid `new_owner` is
supplied — none at all, or one who holds no OWNER-level member row in the
organization — and on that failure the store is returned exactly as it
was, so both the organization's `owner` field and the member's stored
`permission_level` are unchanged. -/
theorem updateMemberPermission_owner_guard (db : DB) (m : Member)
    (org : Organization) (no : Option User) (pl : Int) (ru : User)
    (horg : findOrg db m.organization_id = some org)
    (hown : m.permission_level = OWNER)
    (huser : m.user_id = org.owner_id)
    (hne : pl ≠ m.permission_level)
    (hbad : ∀ u : User, no = some u →
      ∀ r ∈ db.members, r.organization_id = m.organization_id →
        r.user_id = u.id → r.permission_level ≠ OWNER) :
    (updateMemberPermission db (some m) no (some pl) (some ru)).1 = db ∧
    ∃ e, (updateMemberPermission db (some m) no (some pl) (some ru)).2 =
      .error e := by
  simp only [updateMemberPermission]
  rw [if_neg (show ¬m.permission_level = pl from fun h => hne h.symm), horg]
  dsimp only
  cases hc : checkUserPermission db "update_member_permission" (some org) (some ru) with
  | error e => exact ⟨rfl, e, rfl⟩
  | ok v =>
    cases v
    rw [if_pos (show (m.permission_level == OWNER && m.user_id == org.owner_id) = true
      by simp [hown, huser])]
    cases no with
    | none => exact ⟨rfl, .valueError, rfl⟩
    | some u' =>
      dsimp only
      have hempty : (((db.members.filter
          (fun r => r.organization_id == m.organization_id)).filter
          (fun r => r.user_id == u'.id)).filter
          (fun r => r.permission_level == OWNER)) = [] := by
        rw [List.filter_eq_nil_iff]
        intro r hr
        have hr1 := List.mem_filter.mp hr
        have hr0 := List.mem_filter.mp hr1.1
        have hlvl := hbad u' rfl r hr0.1
          (by simpa using hr0.2) (by simpa using hr1.2)
        simpa using hlvl
      rw [hempty]
      exact ⟨rfl, .valueError, rfl⟩

/-- A store for the ownership-transfer guard: `userA` is the OWNER-level
member 22 of `orgV1` (whose `owner` is `userA`), and `userB` is a plain
level-1 member. -/
def dbOwn : DB :=
  { users := [userA, userB]
    organizations := [orgV1]
    members := [{ id := 22, organization_id := 30, user_id := 1,
                  permission_level := OWNER, invitation_id := none },
                { id := 20, organization_id := 30, user_id := 2,
                  permission_level := 1, invitation_id := none }]
    invitations := []
    nextId := 95 }

/-- Witness for C2: demoting `userA`'s OWNER member row to level 3 with
`userB` — who holds only a level-1 row — as `new_owner` fails and leaves
the store unchanged. -/
theorem updateMemberPermission_owner_guard_witness :
    (updateMemberPermission dbOwn
        (some { id := 22, organization_id := 30, user_id := 1,
                permission_level := OWNER, invitation_id := none })
        (some userB) (some 3) (some userA)).1 = dbOwn ∧
    ∃ e, (updateMemberPermission dbOwn
        (some { id := 22, organization_id := 30, user_id := 1,
                permission_level := OWNER, invitation_id := none })
        (some userB) (some 3) (some userA)).2 = .error e := by
  refine updateMemberPermission_owner_guard dbOwn _ orgV1 (some userB) 3 userA
    rfl rfl rfl (by decide) ?_
  intro u hu
  cases hu
  decide

/-! ### C1 -/

/-- A store holding only `userA` and no other rows. -/
def dbBase : DB :=
  { users := [userA], organizations := [], members := [], invitations := []
    nextId := 5 }

/-- Counterexample to C1 as stated: `create_organization` returns
successfully with `userA` as owner, yet the member table is still empty —
no founding OWNER-level member row was created in the same operation, so
immediately after the call the owner holds no member row at all. -/
theorem createOrganization_no_founding_member :
    ((createOrganization dbBase (some userA)).1.members = []) ∧
    ∃ org, (createOrganization dbBase (some userA)).2 = .ok org ∧
      org.owner_id = userA.id :=
  ⟨rfl, ⟨{ id := 5, owner_id := 1, super_organization_id := none,
           permissions_policy := some DEFAULT_PERMISSIONS_POLICY }, rfl, rfl⟩⟩

/-- The organization row `create_organization` inserts for `u`. -/
def foundingOrg (db : DB) (u : User) : Organization :=
  { id := db.nextId, owner_id := u.id, super_organization_id := none
    permissions_policy := some DEFAULT_PERMISSIONS_POLICY }

/-- The member row `create_owner` inserts when run directly after
`create_organization`. -/
def foundingMember (db : DB) (u : User) : Member :=
  { id := db.nextId + 1, organization_id := db.nextId, user_id := u.id
    permission_level := OWNER, invitation_id := none }

/-- C1 (amended): `create_organization` creates an Organization owned by
the principal with the default `{version: 0}` policy and performs no
authorization check, but creates no member row itself; the founding
OWNER-level member is produced by the separate `create_owner` operation,
after which the owner does hold an OWNER-level member row in the new
organization. -/
theorem createOrganization_then_createOwner (db : DB) (u : User)
    (hauth : u.is_authenticated = true) :
    createOrganization db (some u) =
      ({ db with organizations := db.organizations ++ [foundingOrg db u],
                 nextId := db.nextId + 1 }, .ok (foundingOrg db u)) ∧
    (foundingOrg db u).owner_id = u.id ∧
    (foundingOrg db u).permissions_policy = some DEFAULT_PERMISSIONS_POLICY ∧
    (createOrganization db (some u)).1.members = db.members ∧
    createOwner { db with organizations := db.organizations ++ [foundingOrg db u],
                          nextId := db.nextId + 1 }
        (some (foundingOrg db u)) (some u) =
      ({ db with organizations := db.organizations ++ [foundingOrg db u],
                 members := db.members ++ [foundingMember db u],
                 nextId := db.nextId + 2 }, .ok (foundingMember db u)) ∧
    (foundingMember db u).permission_level = OWNER ∧
    (foundingMember db u).user_id = (foundingOrg db u).owner_id ∧
    (foundingMember db u).organization_id = (foundingOrg db u).id := by
  refine ⟨rfl, rfl, rfl, rfl, ?_, rfl, rfl, rfl⟩
  simp [createOwner, hauth, foundingMember, foundingOrg]

/-- Witness for C1 (amended): on the one-user store, creating the
organization and then its founding owner yields the OWNER-level member
row for `userA`. -/
theorem createOrganization_then_createOwner_witness :
    createOrganization dbBase (some userA) =
      ({ dbBase with organizations := dbBase.organizations ++ [foundingOrg dbBase userA],
                     nextId := dbBase.nextId + 1 }, .ok (foundingOrg dbBase userA)) ∧
    createOwner { dbBase with
                    organizations := dbBase.organizations ++ [foundingOrg dbBase userA],
                    nextId := dbBase.nextId + 1 }
        (some (foundingOrg dbBase userA)) (some userA) =
      ({ dbBase with organizations := dbBase.organizations ++ [foundingOrg dbBase userA],
                     members := dbBase.members ++ [foundingMember dbBase userA],
                     nextId := dbBase.nextId + 2 }, .ok (foundingMember dbBase userA)) :=
  ⟨(createOrganization_then_createOwner dbBase userA rfl).1,
   (createOrganization_then_createOwner dbBase userA rfl).2.2.2.2.1⟩

/-! ### C6 -/

/-- The permission evaluator only ever raises `ValueError` or
`PermissionDenied`, never a domain-conflict exception. -/
theorem checkUserPermission_not_conflict (db : DB) (a : String)
    (o : Option Organization) (u : Option User) (c : String) :
    checkUserPermission db a o u ≠ .error (.conflict c) := by
  intro h
  unfold checkUserPermission at h
  rcases o with _ | org
  · simp at h
  rcases u with _ | u'
  · simp at h
  dsimp only at h
  by_cases ha : a = ""
  · rw [if_pos ha] at h
    simp at h
  rw [if_neg ha] at h
  generalize (match org.permissions_policy with
    | none => DEFAULT_PERMISSIONS_POLICY
    | some d => if d.isEmptyDict then DEFAULT_PERMISSIONS_POLICY else d) = pp at h
  by_cases hs : schemaValid pp = true
  · rw [show validatePermissionsPolicy (some pp) = .ok () by
      simp [validatePermissionsPolicy, hs]] at h
    dsimp only at h
    repeat' split at h
    all_goals simp at h
  · rw [show validatePermissionsPolicy (some pp) = .error .valueError by
      simp [validatePermissionsPolicy, hs]] at h
    simp at h

/-- A store whose single invitation to `c@x.com` in `orgOpen` has been
CANCELED — no pending invitation to that address exists. -/
def dbC6 : DB :=
  { users := [userA, userB]
    organizations := [orgOpen]
    members := []
    invitations := [{ id := 41, organization_id := 11, inviter_id := 1,
                      email := "c@x.com", permission_level := 5,
                      expires_at := 1000, status := .canceled }]
    nextId := 70 }

/-- Counterexample to C6 as stated: no PENDING invitation to `c@x.com`
exists in the organization (the only one is CANCELED), yet
`create_invitation` still raises the `already_invited` conflict — the
duplicate queryset carries no status filter, so an invitation whose
status has left PENDING does block a new invitation. -/
theorem createInvitation_canceled_still_blocks :
    (∀ i ∈ dbC6.invitations, i.status ≠ InvitationStatus.pending) ∧
    createInvitation dbC6 (some "c@x.com") (some 2000) (some orgOpen) none
        (some userA) =
      (dbC6, .error (.conflict "already_invited")) :=
  ⟨by decide, rfl⟩

/-- C6 (amended): `create_invitation` raises the `already_invited`
conflict exactly when any invitation to the same email, of any status,
already exists in the organization; when no such invitation exists it
raises the `already_joined` conflict if the email already resolves to a
member of the organization; and both conflicts are raised before and
independently of the authorization check — they hold for every
requesting principal, authorized or not, and leave the store unchanged. -/
theorem createInvitation_conflicts (db : DB) (em : String) (exp : Int)
    (org : Organization) (pl : Option Int) (ru : User) :
    ((∃ i ∈ db.invitations, i.organization_id = org.id ∧ i.email = em) →
      createInvitation db (some em) (some exp) (some org) pl (some ru) =
        (db, .error (.conflict "already_invited"))) ∧
    ((∀ i ∈ db.invitations, ¬(i.organization_id = org.id ∧ i.email = em)) →
      (createInvitation db (some em) (some exp) (some org) pl (some ru)).2 ≠
        .error (.conflict "already_invited")) ∧
    ((∀ i ∈ db.invitations, ¬(i.organization_id = org.id ∧ i.email = em)) →
      (∃ m ∈ db.members, m.organization_id = org.id ∧
        userEmail db m.user_id = some em) →
      createInvitation db (some em) (some exp) (some org) pl (some ru) =
        (db, .error (.conflict "already_joined"))) := by
  refine ⟨?_, ?_, ?_⟩
  · intro hex
    have hne : (db.invitations.filter
        (fun i => i.organization_id == org.id && i.email == em)).isEmpty = false := by
      obtain ⟨i, hi, h1, h2⟩ := hex
      cases hq : (db.invitations.filter
          (fun i => i.organization_id == org.id && i.email == em)).isEmpty with
      | false => rfl
      | true =>
        rw [List.isEmpty_iff, List.filter_eq_nil_iff] at hq
        exact absurd (by simp [h1, h2]) (hq i hi)
    simp [createInvitation, hne]
  · intro hnone
    have hemp : (db.invitations.filter
        (fun i => i.organization_id == org.id && i.email == em)).isEmpty = true := by
      rw [List.isEmpty_iff, List.filter_eq_nil_iff]
      intro i hi
      have := hnone i hi
      simp only [not_and] at this
      by_cases h1 : i.organization_id = org.id
      · simp [h1, this h1]
      · simp [h1]
    simp only [createInvitation, hemp]
    cases hm : (db.members.filter (fun m => m.organization_id == org.id &&
        userEmail db m.user_id == some em)).isEmpty with
    | false => simp
    | true =>
      simp only [Bool.not_true, Bool.false_eq_true, if_false, Bool.not_false,
        Bool.true_eq_false]
      cases hc : checkUserPermission db "create_invitation" (some org) (some ru) with
      | error e =>
        simp only []
        intro hcontra
        simp only [Prod.snd, Except.error.injEq] at hcontra
        exact checkUserPermission_not_conflict db "create_invitation" (some org)
          (some ru) "already_invited" (by rw [hc, hcontra])
      | ok v => cases v; simp
  · intro hnone hex
    have hemp : (db.invitations.filter
        (fun i => i.organization_id == org.id && i.email == em)).isEmpty = true := by
      rw [List.isEmpty_iff, List.filter_eq_nil_iff]
      intro i hi
      have := hnone i hi
      simp only [not_and] at this
      by_cases h1 : i.organization_id = org.id
      · simp [h1, this h1]
      · simp [h1]
    have hne : (db.members.filter (fun m => m.organization_id == org.id &&
        userEmail db m.user_id == some em)).isEmpty = false := by
      obtain ⟨m, hm, h1, h2⟩ := hex
      cases hq : (db.members.filter (fun m => m.organization_id == org.id &&
          userEmail db m.user_id == some em)).isEmpty with
      | false => rfl
      | true =>
        rw [List.isEmpty_iff, List.filter_eq_nil_iff] at hq
        exact absurd (by simp [h1, h2]) (hq m hm)
    simp [createInvitation, hemp, hne]

/-- Witness for C6 (amended): in the store with only the CANCELED
invitation to `c@x.com`, inviting `b@x.com` never raises
`already_invited`, while inviting an address held by an existing member
raises `already_joined`. -/
theorem createInvitation_conflicts_witness :
    ((createInvitation dbC6 (some "b@x.com") (some 2000) (some orgOpen) none
        (some userA)).2 ≠ .error (.conflict "already_invited")) ∧
    (createInvitation dbOwn (some "b@x.com") (some 2000) (some orgV1) none
        (some userA) = (dbOwn, .error (.conflict "already_joined"))) := by
  constructor
  · exact (createInvitation_conflicts dbC6 "b@x.com" 2000 orgOpen none userA).2.1
      (by decide)
  · exact (createInvitation_conflicts dbOwn "b@x.com" 2000 orgV1 none userA).2.2
      (by decide)
      ⟨{ id := 20, organization_id := 30, user_id := 2,
         permission_level := 1, invitation_id := none }, by decide, by decide⟩

/-! ### C7 -/

/-- Counterexample to C7 as stated: invoked without an organization,
`get_member` resolves member 21 (which belongs to `userA`, not to the
requesting `userB`) across all members and then authorizes `get_member`
against that member's organization — whose version-0 policy denies
`userB` — so the unscoped read raises Permission Denied. -/
theorem getMember_unscoped_permission_denied :
    getMember dbV1 (some 21) none (some userB) none =
      .error .permissionDenied := rfl

/-- C7 (amended): the unscoped set reads and the unscoped invitation
lookup are scoped to the requesting principal's own rows (matching
`user_id` or `email`) and never raise a permission error; the unscoped
`get_member`, by contrast, looks the id up across all member rows and
authorizes `get_member` against the found member's organization, so it
can raise Permission Denied. -/
theorem unscoped_reads_spec (db : DB) (u : User) (tnow : Int) :
    (getMemberSet db none (some u) =
      .ok (db.members.filter (fun m => m.user_id == u.id))) ∧
    (getInvitationSet db none (some u) tnow =
      .ok ((db.invitations.filter (fun i => i.email == u.email)).filter
        (fun i => decide (tnow < i.expires_at) &&
          i.status == InvitationStatus.pending))) ∧
    (∀ iid, getInvitation db (some iid) none (some u) none tnow ≠
      .error .permissionDenied) ∧
    (∀ iid i, getInvitation db (some iid) none (some u) none tnow =
      .ok (some i) → i.email = u.email) ∧
    (∀ mid m o, db.members.filter (fun r => r.id == mid) = [m] →
      findOrg db m.organization_id = some o →
      getMember db (some mid) none (some u) none =
        (match checkUserPermission db "get_member" (some o) (some u) with
         | .error e => .error e
         | .ok _ => .ok (some m))) := by
  refine ⟨rfl, rfl, ?_, ?_, ?_⟩
  · intro iid h
    simp only [getInvitation] at h
    split at h
    · exact nomatch h
    · simp at h
    · simp at h
  · intro iid i h
    simp only [getInvitation] at h
    have hmem : i ∈ (((db.invitations.filter
        (fun x => x.email == u.email)).filter
        (fun x => decide (tnow < x.expires_at))).filter
        (fun x => x.id == iid)).filter
        (fun x => x.status == InvitationStatus.pending) := by
      cases hq : (((db.invitations.filter
          (fun x => x.email == u.email)).filter
          (fun x => decide (tnow < x.expires_at))).filter
          (fun x => x.id == iid)).filter
          (fun x => x.status == InvitationStatus.pending) with
      | nil => rw [hq] at h; simp at h
      | cons j rest =>
        cases rest with
        | nil =>
          rw [hq] at h
          simp only [Except.ok.injEq, Option.some.injEq] at h
          rw [h]
          exact List.mem_singleton.mpr rfl
        | cons j2 rest2 => rw [hq] at h; simp at h
    have h1 := List.mem_filter.mp hmem
    have h2 := List.mem_filter.mp h1.1
    have h3 := List.mem_filter.mp h2.1
    have h4 := List.mem_filter.mp h3.1
    simpa using h4.2
  · intro mid m o hflt horg
    simp only [getMember]
    rw [hflt]
    dsimp only
    rw [horg]

/-- Witness for C7 (amended): on the fixture store the unscoped member
listing for `userB` returns exactly `userB`'s own row, and the unscoped
`get_member` of `userA`'s row 21 evaluates to the authorization outcome
against `orgClosed` — Permission Denied for `userB`. -/
theorem unscoped_reads_spec_witness :
    (getMemberSet dbV1 none (some userB) =
      .ok (dbV1.members.filter (fun m => m.user_id == userB.id))) ∧
    (getMember dbV1 (some 21) none (some userB) none =
      (match checkUserPermission dbV1 "get_member" (some orgClosed) (some userB) with
       | .error e => .error e
       | .ok _ => .ok (some { id := 21, organization_id := 10, user_id := 1,
                              permission_level := OWNER, invitation_id := none }))) :=
  ⟨(unscoped_reads_spec dbV1 userB 0).1,
   (unscoped_reads_spec dbV1 userB 0).2.2.2.2 21
     { id := 21, organization_id := 10, user_id := 1,
       permission_level := OWNER, invitation_id := none } orgClosed rfl rfl⟩

end OrgService
